import Mathlib

/-!
Verification of the image-locality scheduler extender (`cmd/main.go`).

The development shallowly embeds the Go program: Kubernetes API values become
plain Lean structures, `strings.Contains` becomes an executable substring test
on character lists, and the scoring loop of `nodeHasImage` becomes a fold whose
`uint32` counter is a natural number reduced modulo `2 ^ 32` at every
increment, exactly as Go unsigned arithmetic wraps.  The HTTP handler
`PrioritizeRoute` is embedded as a pure function from a request (whose body may
be absent, modelling a nil `r.Body`) to an explicit outcome: an HTTP response
or a panic at one of the three `panic(err)` sites of the Go handler.
-/

namespace KSE

/-- `charsContain needle hay` decides whether `needle` occurs contiguously in
`hay`: either `needle` is a prefix of `hay`, or it occurs in `hay`'s tail.
An empty `needle` occurs in every list. -/
def charsContain (needle : List Char) : List Char → Bool
  | [] => needle.isEmpty
  | c :: rest => needle.isPrefixOf (c :: rest) || charsContain needle rest

/-- Model of Go `strings.Contains s substr`: `substr` occurs in `s`. -/
def strContains (s substr : String) : Bool :=
  charsContain substr.data s.data

/-- `v1.Container`: only the `Image` field (the image reference string) is read
by the program. -/
structure Container where
  Image : String
deriving DecidableEq

/-- `v1.PodSpec`: the ordered container list. -/
structure PodSpec where
  Containers : List Container
deriving DecidableEq

/-- `v1.Pod`: name and spec, the fields the program reads. -/
structure Pod where
  Name : String
  Spec : PodSpec
deriving DecidableEq

/-- `v1.ContainerImage`: one image record of a node's status, carrying the
alias names under which the cached image is known. -/
structure ContainerImage where
  Names : List String
deriving DecidableEq

/-- `v1.NodeStatus`: the reported image inventory. -/
structure NodeStatus where
  Images : List ContainerImage
deriving DecidableEq

/-- `v1.Node`: name and status, the fields the program reads. -/
structure Node where
  Name : String
  Status : NodeStatus
deriving DecidableEq

/-- `schedulingapi.HostPriority`: one output entry.  `Score` is a Go `int`
(the program stores `int(score)` for a `uint32` score, always non-negative),
embedded as `Int`. -/
structure HostPriority where
  Host : String
  Score : Int
deriving DecidableEq

/-- `schedulingapi.HostPriorityList`. -/
abbrev HostPriorityList := List HostPriority

/-- `v1.NodeList`: the `Items` field read via `args.Nodes.Items`. -/
structure NodeList where
  Items : List Node
deriving DecidableEq

/-- `schedulingapi.ExtenderArgs`: the decoded request body. -/
structure ExtenderArgs where
  Pod : Pod
  Nodes : NodeList
deriving DecidableEq

/-- The scan the three nested loops of `nodeHasImage` perform for one
container: walk the records in order, and inside each record walk its alias
names, until some reported name contains the container's image reference.  In
the Go code the first match sets `shouldBreak` and leaves both inner loops, so
for a fixed container the whole scan only decides whether such a name exists;
`List.any` is exactly that early-exiting existence test. -/
def findMatch (ctnrImage : String) (nodeImages : List ContainerImage) : Bool :=
  nodeImages.any (fun img => img.Names.any (fun imgName => strContains imgName ctnrImage))

/-- Model of `nodeHasImage pod nodeImages nodeName`: return `0` immediately
when the node reports no images, otherwise count, over the pod's containers in
order, those whose image reference matches some reported name.  The Go counter
is a `uint32`, so each `count++` wraps modulo `2 ^ 32`.  The node name is only
used for logging. -/
def nodeHasImage (pod : Pod) (nodeImages : List ContainerImage) (_nodeName : String) : Nat :=
  if nodeImages.length = 0 then 0
  else
    pod.Spec.Containers.foldl
      (fun count ctnr =>
        if findMatch ctnr.Image nodeImages then (count + 1) % 2 ^ 32 else count)
      0

/-- The score as the specification words it: the number of containers of the
workload unit with at least one matching node image name (no wrap-around).
Stated with `countP` so it can be compared with the fold of `nodeHasImage`. -/
def specImageScore (pod : Pod) (nodeImages : List ContainerImage) : Nat :=
  pod.Spec.Containers.countP (fun ctnr => findMatch ctnr.Image nodeImages)

/-- `PrioritizeMethod`: a named scoring method.  The Go function returns
`(*HostPriorityList, error)`, embedded as `Except`. -/
structure PrioritizeMethod where
  Name : String
  Func : Pod → List Node → Except String HostPriorityList

/-- `PrioritizeMethod.Handler`: unpack the decoded arguments and call the
method's function. -/
def PrioritizeMethod.Handler (p : PrioritizeMethod) (args : ExtenderArgs) :
    Except String HostPriorityList :=
  p.Func args.Pod args.Nodes.Items

/-- `ImagePriority`: the registered `image_score` method.  The Go loop builds
`priorityList` with `priorityList[i] = {Host: nodes[i].Name, Score:
int(nodeHasImage(pod, nodes[i].Status.Images, nodes[i].Name))}` and returns it
with a nil error, i.e. a map over the node list. -/
def ImagePriority : PrioritizeMethod where
  Name := "image_score"
  Func := fun pod nodes =>
    Except.ok (nodes.map (fun node =>
      { Host := node.Name
        Score := Int.ofNat (nodeHasImage pod node.Status.Images node.Name) }))

/-- An incoming HTTP request, reduced to what the handler inspects: `Body` is
`none` when `r.Body == nil`. -/
structure Request where
  Body : Option String

/-- `checkRequestBody`: false (after writing the 400 error) when the request
has no body. -/
def checkRequestBody (r : Request) : Bool :=
  match r.Body with
  | none => false
  | some _ => true

/-- Which of the three `panic(err)` sites of `PrioritizeRoute` fired. -/
inductive PanicSite where
  | decodeFail
  | scoreFail
  | encodeFail
deriving DecidableEq

/-- The observable outcome of one handler invocation: an HTTP response
(status, optional Content-Type, body) or a process panic. -/
inductive HandlerResult where
  | response (status : Nat) (contentType : Option String) (body : String)
  | panicked (site : PanicSite)
deriving DecidableEq

/-- Model of the closure returned by `PrioritizeRoute priorityMethod`.  JSON
decoding of the body and encoding of the result are I/O-library collaborators,
so they are parameters; the handler's own control flow is translated branch by
branch: a nil body is answered with the 400 error written by
`checkRequestBody`; a decode error, a scoring error and an encode error each
hit `panic(err)`; otherwise the JSON result is written with status 200. -/
def PrioritizeRoute (decode : String → Except String ExtenderArgs)
    (encode : HostPriorityList → Except String String)
    (priorityMethod : PrioritizeMethod) (r : Request) : HandlerResult :=
  match r.Body with
  | none =>
      HandlerResult.response 400 none
        "the request is empty, expecting a pod and a list of nodes!"
  | some body =>
      match decode body with
      | Except.error _ => HandlerResult.panicked PanicSite.decodeFail
      | Except.ok extenderArgs =>
          match priorityMethod.Handler extenderArgs with
          | Except.error _ => HandlerResult.panicked PanicSite.scoreFail
          | Except.ok list =>
              match encode list with
              | Except.error _ => HandlerResult.panicked PanicSite.encodeFail
              | Except.ok resultBody =>
                  HandlerResult.response 200 (some "application/json") resultBody

/-- A registered route of the HTTP router: verb and path. -/
structure Route where
  verb : String
  path : String
deriving DecidableEq

/-- Model of Go `strings.HasPrefix s pre`: `s` begins with `pre`. -/
def hasPrefix (s pre : String) : Bool :=
  pre.data.isPrefixOf s.data

/-- Model of the prefix handling in `init`: each flag value missing a leading
`/` gets one prepended, then the priorities prefix is set to the concatenation
`apiPrefix + prioritiesPrefix`.  Returns the final pair. -/
def initPrefixes (apiFlag priFlag : String) : String × String :=
  let api := if hasPrefix apiFlag "/" then apiFlag else "/" ++ apiFlag
  let pri := if hasPrefix priFlag "/" then priFlag else "/" ++ priFlag
  (api, api ++ pri)

/-- `AddPrioritizeFunc`: register `POST {prioritiesPrefix}/{method name}` on
the router, modelled as appending the route to the router's route list.
`pp` is the global priorities prefix computed by `init`. -/
def AddPrioritizeFunc (pp : String) (router : List Route)
    (priorityMethod : PrioritizeMethod) : List Route :=
  router ++ [{ verb := "POST", path := pp ++ "/" ++ priorityMethod.Name }]

/-! ### Helper lemmas -/

/-- The empty character list occurs in every list, as `strings.Contains s ""`
is always true. -/
theorem charsContain_nil (l : List Char) : charsContain [] l = true := by
  cases l with
  | nil => rfl
  | cons c rest => simp [charsContain]

/-- The wrapping counting fold of `nodeHasImage`, reduced to `countP` modulo
`2 ^ 32`. -/
theorem foldl_count_mod (p : Container → Bool) (cs : List Container) (k : Nat)
    (hk : k < 2 ^ 32) :
    cs.foldl (fun count ctnr => if p ctnr then (count + 1) % 2 ^ 32 else count) k
      = (k + cs.countP p) % 2 ^ 32 := by
  induction cs generalizing k with
  | nil => simp only [List.foldl_nil, List.countP_nil]; omega
  | cons c cs ih =>
    by_cases hc : p c
    · simp only [List.foldl_cons, hc, if_true]
      rw [ih ((k + 1) % 2 ^ 32) (Nat.mod_lt _ (by norm_num)),
        Nat.mod_add_mod, List.countP_cons_of_pos _ _ hc]
      have harith : k + 1 + cs.countP p = k + (cs.countP p + 1) := by omega
      rw [harith]
    · have hcf : p c = false := by simpa using hc
      simp only [List.foldl_cons, hcf, Bool.false_eq_true, if_false]
      rw [ih k hk, List.countP_cons_of_neg _ _ hc]

/-- `nodeHasImage` is the specification's matching-container count reduced
modulo `2 ^ 32` (the counter in the code is a `uint32`). -/
theorem nodeHasImage_eq_mod (pod : Pod) (imgs : List ContainerImage) (nm : String) :
    nodeHasImage pod imgs nm = specImageScore pod imgs % 2 ^ 32 := by
  unfold nodeHasImage specImageScore
  by_cases h : imgs.length = 0
  · have hnil : imgs = [] := List.length_eq_zero.mp h
    subst hnil
    simp [findMatch]
  · simp only [h, if_false]
    rw [foldl_count_mod _ _ 0 (by norm_num)]
    simp

/-- The specification-side count never exceeds the container count. -/
theorem specImageScore_le (pod : Pod) (imgs : List ContainerImage) :
    specImageScore pod imgs ≤ pod.Spec.Containers.length :=
  List.countP_le_length _

/-- The score never exceeds the container count, wrap or no wrap. -/
theorem nodeHasImage_le (pod : Pod) (imgs : List ContainerImage) (nm : String) :
    nodeHasImage pod imgs nm ≤ pod.Spec.Containers.length := by
  rw [nodeHasImage_eq_mod]
  exact le_trans (Nat.mod_le _ _) (specImageScore_le pod imgs)

/-- A node whose whole inventory is `2 ^ 32` (or any `n`) copies of an
empty-named record scenario: the spec-side score of a pod made of `n`
empty-image containers against one record with one empty name is exactly `n`,
since the empty string is contained in every name. -/
theorem specImageScore_replicate (n : Nat) :
    specImageScore
        { Name := "p", Spec := { Containers := List.replicate n { Image := "" } } }
        [{ Names := [""] }]
      = n := by
  show (List.replicate n ({ Image := "" } : Container)).countP
      (fun ctnr => findMatch ctnr.Image [{ Names := [""] }]) = n
  have hall : ∀ a ∈ List.replicate n ({ Image := "" } : Container),
      (fun ctnr => findMatch ctnr.Image [{ Names := [""] }]) a = true := by
    intro a ha
    have ha2 : a = { Image := "" } := List.eq_of_mem_replicate ha
    subst ha2
    decide
  rw [List.countP_eq_length.mpr hall, List.length_replicate]

/-- The shared concrete workload unit of the witnesses: two containers,
`nginx` and `redis`. -/
def podW : Pod :=
  { Name := "web", Spec := { Containers := [{ Image := "nginx" }, { Image := "redis" }] } }

/-- A node caching a tagged nginx image: only the `nginx` container matches. -/
def nodeA : Node :=
  { Name := "a", Status := { Images := [{ Names := ["docker.io/library/nginx:latest"] }] } }

/-- A node with an empty image inventory. -/
def nodeB : Node :=
  { Name := "b", Status := { Images := [] } }

/-- A decode collaborator that always fails, for exercising the panic path. -/
def decodeFail0 : String → Except String ExtenderArgs :=
  fun _ => Except.error "bad"

/-- An encode collaborator that always succeeds. -/
def encodeOk0 : HostPriorityList → Except String String :=
  fun _ => Except.ok "[]"

/-! ### The claims -/

/-- Claim C1, counterexample: the counter of `nodeHasImage` is a `uint32`, so
on a workload unit of `2 ^ 32` containers that all match (the empty image
reference is a substring of every reported name) the returned score wraps to
`0` while the number of matching containers is `2 ^ 32`: the score does not
always equal the matching-container count. -/
theorem nodeHasImage_wrap_counterexample :
    nodeHasImage
        { Name := "p", Spec := { Containers := List.replicate (2 ^ 32) { Image := "" } } }
        [{ Names := [""] }] "n"
      ≠ specImageScore
          { Name := "p", Spec := { Containers := List.replicate (2 ^ 32) { Image := "" } } }
          [{ Names := [""] }] := by
  rw [nodeHasImage_eq_mod, specImageScore_replicate]
  norm_num

/-- Claim C1 (amended): for a workload unit with fewer than `2 ^ 32`
containers — so that the `uint32` counter cannot wrap — the image-locality
score computed by `nodeHasImage` equals the number of containers (in input
order) with at least one node-reported image name containing the container's
image reference as a substring, each container counted at most once. -/
theorem nodeHasImage_counts_matching (pod : Pod) (imgs : List ContainerImage)
    (nm : String) (h : pod.Spec.Containers.length < 2 ^ 32) :
    nodeHasImage pod imgs nm = specImageScore pod imgs := by
  rw [nodeHasImage_eq_mod]
  exact Nat.mod_eq_of_lt (lt_of_le_of_lt (specImageScore_le pod imgs) h)

/-- Claim C1, witness: the amended theorem applied to the two-container pod
against the nginx-caching node, where the score is 1. -/
theorem nodeHasImage_counts_matching_witness :
    podW.Spec.Containers.length < 2 ^ 32 ∧
    nodeHasImage podW nodeA.Status.Images "a" = specImageScore podW nodeA.Status.Images :=
  ⟨by decide, nodeHasImage_counts_matching podW nodeA.Status.Images "a" (by decide)⟩

/-- Claim C5: every score entry produced by the `image_score` method is a
non-negative integer that is at most the number of containers of the workload
unit. -/
theorem imagePriority_score_bounds (pod : Pod) (nodes : List Node)
    (l : HostPriorityList) (hl : ImagePriority.Func pod nodes = Except.ok l)
    (e : HostPriority) (he : e ∈ l) :
    0 ≤ e.Score ∧ e.Score ≤ (pod.Spec.Containers.length : Int) := by
  have hfun : ImagePriority.Func pod nodes
      = Except.ok (nodes.map (fun node =>
          { Host := node.Name
            Score := Int.ofNat (nodeHasImage pod node.Status.Images node.Name) })) := rfl
  have hmap := Except.ok.inj ((hfun.symm).trans hl)
  rw [← hmap] at he
  obtain ⟨node, _, hne⟩ := List.mem_map.mp he
  subst hne
  refine ⟨Int.ofNat_nonneg _, ?_⟩
  exact Int.ofNat_le.mpr (nodeHasImage_le pod node.Status.Images node.Name)

/-- Claim C5, witness: the bound theorem applied to the entry `image_score`
produces for the nginx-caching node (score 1, two containers). -/
theorem imagePriority_score_bounds_witness :
    0 ≤ ({ Host := "a", Score := 1 } : HostPriority).Score ∧
    ({ Host := "a", Score := 1 } : HostPriority).Score ≤ (podW.Spec.Containers.length : Int) :=
  imagePriority_score_bounds podW [nodeA] [{ Host := "a", Score := 1 }] rfl
    { Host := "a", Score := 1 } (by decide)

/-- Claim C7: a node whose reported image list is empty scores 0 on any
workload unit, and a workload unit with no containers scores 0 against any
image inventory. -/
theorem nodeHasImage_empty_inputs :
    (∀ (pod : Pod) (nm : String), nodeHasImage pod [] nm = 0) ∧
    (∀ (nm0 : String) (imgs : List ContainerImage) (nm : String),
      nodeHasImage { Name := nm0, Spec := { Containers := [] } } imgs nm = 0) := by
  constructor
  · intro pod nm
    simp [nodeHasImage]
  · intro nm0 imgs nm
    unfold nodeHasImage
    split <;> rfl

/-- Claim C8, counterexample: "contributes 1" fails when the `uint32` counter
wraps.  With `2 ^ 32 - 1` containers already matching, appending the
empty-image container drops the score from `2 ^ 32 - 1` to `0` instead of
raising it by 1. -/
theorem empty_image_wrap_counterexample :
    nodeHasImage
        { Name := "p",
          Spec := { Containers :=
            List.replicate (2 ^ 32 - 1) ({ Image := "" } : Container) ++ [{ Image := "" }] } }
        [{ Names := [""] }] "n"
      ≠ nodeHasImage
          { Name := "p",
            Spec := { Containers := List.replicate (2 ^ 32 - 1) ({ Image := "" } : Container) } }
          [{ Names := [""] }] "n" + 1 := by
  have hrep : List.replicate (2 ^ 32 - 1) ({ Image := "" } : Container) ++ [{ Image := "" }]
      = List.replicate (2 ^ 32) ({ Image := "" } : Container) := by
    rw [← List.replicate_succ']
    norm_num
  rw [hrep, nodeHasImage_eq_mod, nodeHasImage_eq_mod,
    specImageScore_replicate, specImageScore_replicate]
  norm_num

/-- Claim C8 (amended): a container whose image reference is the empty string
always counts as a match on a node reporting at least one record with at least
one name, because the empty string is a substring of every name; it raises the
node's score by exactly 1 provided the workload unit stays below the `uint32`
capacity of `2 ^ 32` containers (beyond which the counter wraps). -/
theorem empty_image_always_matches (imgs : List ContainerImage) (img : ContainerImage)
    (himg : img ∈ imgs) (hn : img.Names ≠ []) (pod : Pod) (nm : String)
    (hlen : pod.Spec.Containers.length + 1 < 2 ^ 32) :
    findMatch "" imgs = true ∧
    nodeHasImage
        { Name := pod.Name,
          Spec := { Containers := pod.Spec.Containers ++ [{ Image := "" }] } }
        imgs nm
      = nodeHasImage pod imgs nm + 1 := by
  obtain ⟨nme, hnme⟩ := List.exists_mem_of_ne_nil img.Names hn
  have hfind : findMatch "" imgs = true := by
    refine List.any_eq_true.mpr ⟨img, himg, List.any_eq_true.mpr ⟨nme, hnme, ?_⟩⟩
    show charsContain (String.data "") nme.data = true
    exact charsContain_nil nme.data
  refine ⟨hfind, ?_⟩
  have hsle : specImageScore pod imgs ≤ pod.Spec.Containers.length :=
    specImageScore_le pod imgs
  have hone : specImageScore
      { Name := pod.Name,
        Spec := { Containers := pod.Spec.Containers ++ [{ Image := "" }] } } imgs
      = specImageScore pod imgs + 1 := by
    unfold specImageScore
    rw [List.countP_append]
    congr 1
    simp [List.countP_cons, hfind]
  rw [nodeHasImage_eq_mod, nodeHasImage_eq_mod, hone,
    Nat.mod_eq_of_lt (by omega), Nat.mod_eq_of_lt (by omega)]

/-- Claim C8, witness: the amended theorem at the nginx-caching node and the
two-container pod, whose score goes from 1 to 2 when an empty-image container
is appended. -/
theorem empty_image_always_matches_witness :
    ({ Names := ["docker.io/library/nginx:latest"] } : ContainerImage) ∈ nodeA.Status.Images ∧
    ({ Names := ["docker.io/library/nginx:latest"] } : ContainerImage).Names ≠ [] ∧
    podW.Spec.Containers.length + 1 < 2 ^ 32 ∧
    (findMatch "" nodeA.Status.Images = true ∧
      nodeHasImage
          { Name := podW.Name,
            Spec := { Containers := podW.Spec.Containers ++ [{ Image := "" }] } }
          nodeA.Status.Images "a"
        = nodeHasImage podW nodeA.Status.Images "a" + 1) :=
  ⟨by decide, by decide, by decide,
    empty_image_always_matches nodeA.Status.Images
      { Names := ["docker.io/library/nginx:latest"] } (by decide) (by decide)
      podW "a" (by decide)⟩

/-- Claim C9: the ScoreList returned by `image_score` preserves input order:
the method succeeds with a list of the same length whose `i`-th entry carries
the `i`-th input node's name and its `nodeHasImage` score. -/
theorem imagePriority_preserves_order (pod : Pod) (nodes : List Node) :
    ∃ l, ImagePriority.Func pod nodes = Except.ok l ∧ l.length = nodes.length ∧
      ∀ (i : Nat) (hi : i < nodes.length),
        l[i]? = some { Host := nodes[i].Name
                       Score := Int.ofNat (nodeHasImage pod nodes[i].Status.Images nodes[i].Name) } := by
  have hfun : ImagePriority.Func pod nodes
      = Except.ok (nodes.map (fun node =>
          HostPriority.mk node.Name
            (Int.ofNat (nodeHasImage pod node.Status.Images node.Name)))) := rfl
  refine ⟨_, hfun, List.length_map _ _, ?_⟩
  intro i hi
  rw [List.getElem?_map, List.getElem?_eq_getElem hi]
  rfl

/-- Claim C9, witness: the order theorem at the two-container pod and the
two-node list. -/
theorem imagePriority_preserves_order_witness :
    ∃ l, ImagePriority.Func podW [nodeA, nodeB] = Except.ok l ∧
      l.length = [nodeA, nodeB].length ∧
      ∀ (i : Nat) (hi : i < [nodeA, nodeB].length),
        l[i]? = some { Host := [nodeA, nodeB][i].Name
                       Score := Int.ofNat
                         (nodeHasImage podW [nodeA, nodeB][i].Status.Images
                           [nodeA, nodeB][i].Name) } :=
  imagePriority_preserves_order podW [nodeA, nodeB]

/-- Claim C2, counterexample: nothing deduplicates node names, so when the
same node name appears twice in the input the returned host names repeat it:
the output is not duplicate-free for every input node list. -/
theorem imagePriority_dup_counterexample :
    ImagePriority.Func { Name := "p", Spec := { Containers := [] } } [nodeB, nodeB]
      = Except.ok [{ Host := "b", Score := 0 }, { Host := "b", Score := 0 }] ∧
    ¬ (([{ Host := "b", Score := 0 }, { Host := "b", Score := 0 }] : HostPriorityList).map
        HostPriority.Host).Nodup := by
  constructor
  · rfl
  · decide

/-- Claim C2 (amended): the ScoreList of `image_score` always has exactly one
entry per input node, and when the input node names are pairwise distinct (as
real cluster node names are) the returned host names contain no duplicates. -/
theorem imagePriority_length_and_nodup (pod : Pod) (nodes : List Node)
    (l : HostPriorityList) (hl : ImagePriority.Func pod nodes = Except.ok l) :
    l.length = nodes.length ∧
      ((nodes.map Node.Name).Nodup → (l.map HostPriority.Host).Nodup) := by
  have hfun : ImagePriority.Func pod nodes
      = Except.ok (nodes.map (fun node =>
          { Host := node.Name
            Score := Int.ofNat (nodeHasImage pod node.Status.Images node.Name) })) := rfl
  have hmap := Except.ok.inj ((hfun.symm).trans hl)
  subst hmap
  refine ⟨List.length_map _ _, fun h => ?_⟩
  have hhost : (nodes.map (fun node =>
      ({ Host := node.Name
         Score := Int.ofNat (nodeHasImage pod node.Status.Images node.Name) } : HostPriority))).map
        HostPriority.Host
      = nodes.map Node.Name := by
    rw [List.map_map]
    rfl
  rw [hhost]
  exact h

/-- Claim C2, witness: the amended theorem at two distinctly-named nodes. -/
theorem imagePriority_length_and_nodup_witness :
    ([{ Host := "a", Score := 1 }, { Host := "b", Score := 0 }] : HostPriorityList).length
      = [nodeA, nodeB].length ∧
    (([nodeA, nodeB].map Node.Name).Nodup →
      (([{ Host := "a", Score := 1 }, { Host := "b", Score := 0 }] : HostPriorityList).map
        HostPriority.Host).Nodup) :=
  imagePriority_length_and_nodup podW [nodeA, nodeB]
    [{ Host := "a", Score := 1 }, { Host := "b", Score := 0 }] rfl

/-- Claim C3: a request without a body (a nil `r.Body`, the case
`checkRequestBody` rejects) is answered with HTTP 400 and the handler returns
without scoring: whatever the registered method and the decode and encode
collaborators, the outcome is the 400 response — no ScoreList is produced and
no panic ends the process. -/
theorem emptyBody_responds_400 (decode : String → Except String ExtenderArgs)
    (encode : HostPriorityList → Except String String)
    (m : PrioritizeMethod) (r : Request) (h : checkRequestBody r = false) :
    PrioritizeRoute decode encode m r
      = HandlerResult.response 400 none
          "the request is empty, expecting a pod and a list of nodes!" := by
  have hnone : r.Body = none := by
    unfold checkRequestBody at h
    cases hr : r.Body with
    | none => rfl
    | some s => rw [hr] at h; simp at h
  unfold PrioritizeRoute
  rw [hnone]

/-- Claim C3, witness: the 400 theorem at a concrete bodyless request and the
registered `image_score` method. -/
theorem emptyBody_responds_400_witness :
    checkRequestBody { Body := none } = false ∧
    PrioritizeRoute decodeFail0 encodeOk0 ImagePriority { Body := none }
      = HandlerResult.response 400 none
          "the request is empty, expecting a pod and a list of nodes!" :=
  ⟨rfl, emptyBody_responds_400 decodeFail0 encodeOk0 ImagePriority { Body := none } rfl⟩

/-- Claim C4: when the body is present but does not decode, the handler hits
`panic(err)`: the outcome is the decode-site panic (the reference behavior
terminates the process) and in particular no HTTP response of any status is
returned. -/
theorem malformedBody_panics (decode : String → Except String ExtenderArgs)
    (encode : HostPriorityList → Except String String)
    (m : PrioritizeMethod) (r : Request) (s e : String)
    (hb : r.Body = some s) (hd : decode s = Except.error e) :
    PrioritizeRoute decode encode m r = HandlerResult.panicked PanicSite.decodeFail ∧
    ∀ (status : Nat) (ct : Option String) (b : String),
      PrioritizeRoute decode encode m r ≠ HandlerResult.response status ct b := by
  have hmain : PrioritizeRoute decode encode m r
      = HandlerResult.panicked PanicSite.decodeFail := by
    simp only [PrioritizeRoute, hb, hd]
  refine ⟨hmain, ?_⟩
  intro status ct b hcontra
  rw [hmain] at hcontra
  exact HandlerResult.noConfusion hcontra

/-- Claim C4, witness: the panic theorem at a concrete undecodable body. -/
theorem malformedBody_panics_witness :
    ({ Body := some "not json" } : Request).Body = some "not json" ∧
    decodeFail0 "not json" = Except.error "bad" ∧
    PrioritizeRoute decodeFail0 encodeOk0 ImagePriority { Body := some "not json" }
      = HandlerResult.panicked PanicSite.decodeFail :=
  ⟨rfl, rfl,
    (malformedBody_panics decodeFail0 encodeOk0 ImagePriority
      { Body := some "not json" } "not json" "bad" rfl rfl).1⟩

/-- Claim C6: flag values without a leading `/` are corrected by prepending
one (never rejected), and each registered method ends up exposed at the route
`POST {apiPrefix}{prioritiesPrefix}/{method name}` built from the corrected
prefixes. -/
theorem prefixes_fixed_and_route (a p : String) (m : PrioritizeMethod)
    (router : List Route)
    (ha : hasPrefix a "/" = false) (hp : hasPrefix p "/" = false) :
    initPrefixes a p = ("/" ++ a, "/" ++ a ++ ("/" ++ p)) ∧
    AddPrioritizeFunc (initPrefixes a p).2 router m
      = router ++ [{ verb := "POST", path := ("/" ++ a) ++ ("/" ++ p) ++ "/" ++ m.Name }] := by
  have h1 : initPrefixes a p = ("/" ++ a, "/" ++ a ++ ("/" ++ p)) := by
    simp [initPrefixes, ha, hp]
  refine ⟨h1, ?_⟩
  rw [AddPrioritizeFunc, h1]

/-- Claim C6, witness: the prefix theorem at the slashless flag values `api`
and `pri` and the registered `image_score` method. -/
theorem prefixes_fixed_and_route_witness :
    hasPrefix "api" "/" = false ∧ hasPrefix "pri" "/" = false ∧
    (initPrefixes "api" "pri" = ("/" ++ "api", "/" ++ "api" ++ ("/" ++ "pri")) ∧
      AddPrioritizeFunc (initPrefixes "api" "pri").2 [] ImagePriority
        = [] ++ [{ verb := "POST",
                   path := ("/" ++ "api") ++ ("/" ++ "pri") ++ "/" ++ ImagePriority.Name }]) :=
  ⟨by decide, by decide,
    prefixes_fixed_and_route "api" "pri" ImagePriority [] (by decide) (by decide)⟩

/-- Claim C10: the `image_score` function returns a nil error on every input,
so the handler's scoring-error panic site is unreachable when the registered
method is `image_score`: no request can make `PrioritizeRoute` end in the
score-failure panic. -/
theorem imagePriority_no_score_panic :
    (∀ (pod : Pod) (nodes : List Node), ∃ l, ImagePriority.Func pod nodes = Except.ok l) ∧
    (∀ (decode : String → Except String ExtenderArgs)
      (encode : HostPriorityList → Except String String) (r : Request),
      PrioritizeRoute decode encode ImagePriority r
        ≠ HandlerResult.panicked PanicSite.scoreFail) := by
  constructor
  · intro pod nodes
    exact ⟨_, rfl⟩
  · intro decode encode r
    obtain ⟨body⟩ := r
    cases body with
    | none =>
        intro hcontra
        exact HandlerResult.noConfusion hcontra
    | some s =>
        cases hd : decode s with
        | error e =>
            simp only [PrioritizeRoute, hd]
            intro hcontra
            exact PanicSite.noConfusion (HandlerResult.panicked.inj hcontra)
        | ok args =>
            have hh : ImagePriority.Handler args
                = Except.ok (args.Nodes.Items.map (fun node =>
                    HostPriority.mk node.Name
                      (Int.ofNat (nodeHasImage args.Pod node.Status.Images node.Name)))) := rfl
            simp only [PrioritizeRoute, hd, hh]
            cases he : encode (args.Nodes.Items.map (fun node =>
                HostPriority.mk node.Name
                  (Int.ofNat (nodeHasImage args.Pod node.Status.Images node.Name)))) with
            | error e2 =>
                simp only [he]
                intro hcontra
                exact PanicSite.noConfusion (HandlerResult.panicked.inj hcontra)
            | ok res =>
                simp only [he]
                intro hcontra
                exact HandlerResult.noConfusion hcontra

end KSE
